import Mathlib

/-!
Shallow embedding of the operation pool (`eth2/operation_pool/src/lib.rs`):
the mempool that buffers attestations, proposer slashings, attester
slashings and voluntary exits, aggregates attestations, and selects bounded
subsets for block inclusion.

Modelling conventions:
- Rust `HashMap` stores become association lists; "store-iteration order"
  is the list order.
- The external validity oracles (`verify_proposer_slashing`,
  `verify_attester_slashing`, `verify_exit`,
  `verify_attestation_for_block_inclusion`) live outside this crate; their
  results are passed in as parameters.
- BLS aggregate signatures are opaque: modelled as natural numbers with
  addition as the (associative, commutative) point combination.
- Machine integers (`u64`, `usize`) are modelled as `Nat`; none of the
  verified operations can overflow them on realistic inputs and none of
  the claims depends on wrap-around.
-/

namespace OpPool

/-- Vote payload (`AttestationData`): the pool treats it as an
equality-comparable value with a derivable target epoch; `other` stands for
the remaining fields (slot, index, source checkpoint, target root). -/
structure AttestationData where
  target_epoch : Nat
  other : Nat
deriving DecidableEq, Repr

/-- An attestation: vote payload, signer bitfield, aggregate signature. -/
structure Attestation where
  data : AttestationData
  aggregation_bits : List Bool
  signature : Nat
deriving DecidableEq, Repr

/-- An indexed attestation as carried inside an attester slashing. -/
structure IndexedAttestation where
  attesting_indices : List Nat
  data : AttestationData
  signature : Nat
deriving DecidableEq, Repr

/-- An attester slashing: two conflicting indexed attestations. -/
structure AttesterSlashing where
  attestation_1 : IndexedAttestation
  attestation_2 : IndexedAttestation
deriving DecidableEq, Repr

/-- A proposer slashing; `other` stands for the two conflicting headers. -/
structure ProposerSlashing where
  proposer_index : Nat
  other : Nat
deriving DecidableEq, Repr

/-- A voluntary exit. -/
structure VoluntaryExit where
  validator_index : Nat
  epoch : Nat
deriving DecidableEq, Repr

/-- A validator registry entry, with just the fields the pool reads. -/
structure Validator where
  slashed : Bool
  withdrawable_epoch : Nat
  exit_epoch : Nat
deriving DecidableEq, Repr

/-- Reference chain state: validator registry, current epoch, and the
fork-specific domain-bytes derivation (an external collaborator, modelled
as an opaque function from epoch to domain bytes). -/
structure BeaconState where
  validators : List Validator
  current_epoch : Nat
  domain : Nat → Nat

/-- Spec constants: the per-block maxima for each operation type
(`T::MaxAttestations` and friends). -/
structure ChainSpec where
  max_attestations : Nat
  max_proposer_slashings : Nat
  max_attester_slashings : Nat
  max_voluntary_exits : Nat
deriving DecidableEq, Repr

/-- Previous epoch of a state (`state.previous_epoch()`), saturating at 0. -/
def previous_epoch (st : BeaconState) : Nat :=
  st.current_epoch - 1

/-- Modelled from the spec: `Validator::is_withdrawable_at` lives in the
`types` crate, not under `src/`; a validator is withdrawable once the epoch
reaches its withdrawable epoch. -/
def is_withdrawable_at (v : Validator) (epoch : Nat) : Bool :=
  decide (v.withdrawable_epoch ≤ epoch)

/-- Modelled from the spec: `Validator::is_exited_at` lives in the `types`
crate, not under `src/`; a validator is exited once the epoch reaches its
exit epoch. -/
def is_exited_at (v : Validator) (epoch : Nat) : Bool :=
  decide (v.exit_epoch ≤ epoch)

/-- Modelled from the spec: `AttestationId::compute_domain_bytes`
(`attestation_id.rs` is not under `src/`) derives the fork-specific domain
bytes for an epoch from the reference state. -/
def compute_domain_bytes (epoch : Nat) (st : BeaconState) (_spec : ChainSpec) : Nat :=
  st.domain epoch

/-- An attestation identity key: vote payload plus domain bytes
(spec 4.1: the key is a pure function of the payload and the domain bytes
of the payload's target epoch). -/
abbrev AttestationId := AttestationData × Nat

/-- Modelled from the spec: `AttestationId::from_data`
(`attestation_id.rs` is not under `src/`) pairs the vote payload with the
domain bytes computed for the payload's target epoch. -/
def attestation_id_from_data (d : AttestationData) (st : BeaconState) (spec : ChainSpec) :
    AttestationId :=
  (d, compute_domain_bytes d.target_epoch st spec)

/-- Modelled from the spec: `AttestationId::domain_bytes_match` tests
whether a key was built from the given domain bytes. -/
def domain_bytes_match (id : AttestationId) (db : Nat) : Bool :=
  decide (id.2 = db)

/-- Association-list lookup, standing in for `HashMap::get`. -/
def alistGet {κ β : Type} [DecidableEq κ] : List (κ × β) → κ → Option β
  | [], _ => none
  | kv :: rest, k => if kv.1 = k then some kv.2 else alistGet rest k

/-- Association-list insert, standing in for `HashMap::insert`: replaces
the entry for an existing key in place, otherwise appends. -/
def alistInsert {κ β : Type} [DecidableEq κ] : List (κ × β) → κ → β → List (κ × β)
  | [], k, v => [(k, v)]
  | kv :: rest, k, v =>
    if kv.1 = k then (k, v) :: rest else kv :: alistInsert rest k v

/-- The operation pool: four independent stores
(`OperationPool<T>` fields, with each `RwLock<HashMap<..>>` modelled as an
association list). -/
structure OperationPool where
  attestations : List (AttestationId × List Attestation)
  attester_slashings : List ((AttestationId × AttestationId) × AttesterSlashing)
  proposer_slashings : List (Nat × ProposerSlashing)
  voluntary_exits : List (Nat × VoluntaryExit)
deriving DecidableEq, Repr

/-- Typed error of the external attestation validity oracle. -/
structure AttestationValidationError where
  code : Nat
deriving DecidableEq, Repr

/-- Typed error of the external proposer-slashing validity oracle. -/
structure ProposerSlashingValidationError where
  code : Nat
deriving DecidableEq, Repr

/-- Typed error of the external attester-slashing validity oracle. -/
structure AttesterSlashingValidationError where
  code : Nat
deriving DecidableEq, Repr

/-- Typed error of the external exit validity oracle. -/
structure ExitValidationError where
  code : Nat
deriving DecidableEq, Repr

/-- Attestation signer-set disjointness
(`Attestation::signers_disjoint_from`): the bitwise intersection of the
aggregation bitfields is all-zero. -/
def signers_disjoint_from (a b : Attestation) : Bool :=
  !((List.zipWith (fun x y => x && y) a.aggregation_bits b.aggregation_bits).any (fun x => x))

/-- Attestation aggregation (`Attestation::aggregate`): union of the
aggregation bitfields and combination of the aggregate signatures; the
vote payload is unchanged. -/
def aggregate (a b : Attestation) : Attestation :=
  { a with
    aggregation_bits := List.zipWith (fun x y => x || y) a.aggregation_bits b.aggregation_bits
    signature := a.signature + b.signature }

/-- The bucket scan of `insert_attestation` (the `for existing_attestation
in existing_attestations.iter_mut()` loop): every entry disjoint from the
new attestation is aggregated with it in place; the returned flag records
whether any entry was disjoint from, or bit-for-bit equal to, the new
attestation. -/
def insertLoop : List Attestation → Attestation → List Attestation × Bool
  | [], _ => ([], false)
  | e :: rest, att =>
    let r := insertLoop rest att
    if signers_disjoint_from e att then (aggregate e att :: r.1, true)
    else if e = att then (e :: r.1, true)
    else (e :: r.1, r.2)

/-- Update of one aggregation bucket by `insert_attestation`: run the scan
loop; if nothing aggregated or matched, append the new attestation. -/
def insertIntoBucket (bucket : List Attestation) (att : Attestation) : List Attestation :=
  let r := insertLoop bucket att
  if r.2 then r.1 else r.1 ++ [att]

/-- `OperationPool::insert_attestation`: compute the identity key; if no
bucket exists, create one holding just the attestation; otherwise update
the existing bucket in place with the scan loop. The `Result` return value
is modelled as the second component. -/
def insert_attestation (pool : OperationPool) (att : Attestation) (st : BeaconState)
    (spec : ChainSpec) : OperationPool × Except AttestationValidationError Unit :=
  let id := attestation_id_from_data att.data st spec
  match alistGet pool.attestations id with
  | none =>
    ({ pool with attestations := pool.attestations ++ [(id, [att])] }, Except.ok ())
  | some existing =>
    ({ pool with attestations := alistInsert pool.attestations id (insertIntoBucket existing att) },
     Except.ok ())

/-- `OperationPool::num_attestations`: sum of the bucket lengths. -/
def num_attestations (pool : OperationPool) : Nat :=
  (pool.attestations.map (fun kv => kv.2.length)).sum

/-- `filter_limit_operations`: filter the stored operations with the given
predicate and take up to `limit` of them, in store-iteration order. -/
def filter_limit_operations {α : Type} (operations : List α) (f : α → Bool) (limit : Nat) :
    List α :=
  (operations.filter f).take limit

/-- Marginal gain of a covering set against the already-covered set: the
number of its elements not yet covered. -/
def marginal_gain (covered : List Nat) (cov : List Nat) : Nat :=
  (cov.filter (fun v => !covered.contains v)).length

/-- Largest marginal gain over the remaining candidates. -/
def best_gain {α : Type} (covered : List Nat) (items : List (α × List Nat)) : Nat :=
  items.foldl (fun acc x => max acc (marginal_gain covered x.2)) 0

/-- Extract the first candidate (in original iteration order, so ties break
to the first seen) whose marginal gain equals `m`, returning it together
with the remaining candidates in order. -/
def extract_first_best {α : Type} (covered : List Nat) (m : Nat) :
    List (α × List Nat) → Option ((α × List Nat) × List (α × List Nat))
  | [] => none
  | x :: rest =>
    if marginal_gain covered x.2 = m then some (x, rest)
    else
      match extract_first_best covered m rest with
      | some (y, rest') => some (y, x :: rest')
      | none => none

/-- One round per unit of `fuel`: pick the best remaining candidate by
marginal gain (first-seen wins ties), stop early when the best remaining
gain is zero, and add the chosen covering set to `covered`. -/
def maximum_cover_go {α : Type} : Nat → List (α × List Nat) → List Nat → List α
  | 0, _, _ => []
  | n + 1, items, covered =>
    let m := best_gain covered items
    if m = 0 then []
    else
      match extract_first_best covered m items with
      | none => []
      | some (x, rest) => x.1 :: maximum_cover_go n rest (covered ++ x.2)

/-- Modelled from the spec: `maximum_cover` (`max_cover.rs` is not under
`src/`) is the greedy maximum-coverage approximation of spec 4.3: repeat
until `limit` items are chosen or no candidate has positive remaining
marginal gain, each round picking the remaining candidate with the largest
marginal gain (stable first-seen tie-break) and marking its covering set
covered. -/
def maximum_cover {α : Type} (items : List (α × List Nat)) (limit : Nat) : List α :=
  maximum_cover_go limit items []

/-- Modelled from the spec: `earliest_attestation_validators` and the
attestation-inclusion validity oracle live outside `src/`, so
`get_attestations` takes them as parameters: `verify` is
`verify_attestation_for_block_inclusion(..).is_ok()` and `cover` is the
covering set of an attestation. `OperationPool::get_attestations`: keep the
buckets whose key matches the previous or current epoch domain bytes,
flatten them, drop candidates the oracle rejects, and hand the survivors
with their covering sets to the greedy coverage selector bounded by
`MaxAttestations`. The pool is returned unchanged (the method only takes a
read lock). -/
def get_attestations (pool : OperationPool) (st : BeaconState) (spec : ChainSpec)
    (verify : Attestation → Bool) (cover : Attestation → List Nat) :
    OperationPool × List Attestation :=
  let prev_domain_bytes := compute_domain_bytes (previous_epoch st) st spec
  let curr_domain_bytes := compute_domain_bytes st.current_epoch st spec
  let valid_attestations :=
    (((pool.attestations.filter (fun kv =>
        domain_bytes_match kv.1 prev_domain_bytes ||
          domain_bytes_match kv.1 curr_domain_bytes)).flatMap
      (fun kv => kv.2)).filter verify).map (fun a => (a, cover a))
  (pool, maximum_cover valid_attestations spec.max_attestations)

/-- `OperationPool::prune_attestations`: retain a bucket iff its first
attestation's target epoch is at most one epoch behind the finalized
state's current epoch (all entries of a bucket share the same data, so the
code checks only the first; an empty bucket is dropped). -/
def prune_attestations (pool : OperationPool) (finalized_state : BeaconState) : OperationPool :=
  { pool with attestations := pool.attestations.filter (fun kv =>
      match kv.2.head? with
      | none => false
      | some att => decide (finalized_state.current_epoch ≤ att.data.target_epoch + 1)) }

/-- `OperationPool::insert_proposer_slashing`: the external oracle's result
(`verify_proposer_slashing`) is passed in as `verdict`; on rejection the
typed error is propagated unchanged and the store is untouched, on success
the slashing overwrites any entry for its proposer index. -/
def insert_proposer_slashing (pool : OperationPool) (slashing : ProposerSlashing)
    (_st : BeaconState) (_spec : ChainSpec)
    (verdict : Except ProposerSlashingValidationError Unit) :
    OperationPool × Except ProposerSlashingValidationError Unit :=
  match verdict with
  | Except.error e => (pool, Except.error e)
  | Except.ok _ =>
    ({ pool with
        proposer_slashings := alistInsert pool.proposer_slashings slashing.proposer_index slashing },
     Except.ok ())

/-- `OperationPool::attester_slashing_id`: the pair of identity keys of the
slashing's two conflicting attestations. -/
def attester_slashing_id (slashing : AttesterSlashing) (st : BeaconState) (spec : ChainSpec) :
    AttestationId × AttestationId :=
  (attestation_id_from_data slashing.attestation_1.data st spec,
   attestation_id_from_data slashing.attestation_2.data st spec)

/-- `OperationPool::insert_attester_slashing`: oracle result passed in as
`verdict`; on rejection the typed error is propagated unchanged and the
store untouched, on success the slashing overwrites any entry for its
key pair. -/
def insert_attester_slashing (pool : OperationPool) (slashing : AttesterSlashing)
    (st : BeaconState) (spec : ChainSpec)
    (verdict : Except AttesterSlashingValidationError Unit) :
    OperationPool × Except AttesterSlashingValidationError Unit :=
  match verdict with
  | Except.error e => (pool, Except.error e)
  | Except.ok _ =>
    ({ pool with
        attester_slashings :=
          alistInsert pool.attester_slashings (attester_slashing_id slashing st spec) slashing },
     Except.ok ())

/-- `OperationPool::insert_voluntary_exit`: oracle result
(`verify_exit_time_independent_only`) passed in as `verdict`; on rejection
the typed error is propagated unchanged and the store untouched, on
success the exit overwrites any entry for its validator index. -/
def insert_voluntary_exit (pool : OperationPool) (exit : VoluntaryExit)
    (_st : BeaconState) (_spec : ChainSpec) (verdict : Except ExitValidationError Unit) :
    OperationPool × Except ExitValidationError Unit :=
  match verdict with
  | Except.error e => (pool, Except.error e)
  | Except.ok _ =>
    ({ pool with
        voluntary_exits := alistInsert pool.voluntary_exits exit.validator_index exit },
     Except.ok ())

/-- Modelled from the spec: `get_slashable_indices_modular` lives in
`state_processing`, not under `src/`. Per spec 4.4 and 6 it computes the
slashing's slashable-index set — the indices attested by both conflicting
attestations whose validator exists and is not reported as already slashed
by the caller-supplied predicate — and reports an error when that set is
empty (no net-new slashable index). -/
def get_slashable_indices_modular (st : BeaconState) (slashing : AttesterSlashing)
    (is_slashed : Nat → Validator → Bool) : Except Unit (List Nat) :=
  let both := slashing.attestation_1.attesting_indices.filter
    (fun i => slashing.attestation_2.attesting_indices.contains i)
  let slashable := both.filter (fun i =>
    match st.validators.get? i with
    | some v => !(is_slashed i v)
    | none => false)
  if slashable.isEmpty then Except.error () else Except.ok slashable

/-- The attester-slashing selection loop of `get_slashings`: walk the store
in iteration order; skip entries whose identity-key pair no longer matches
the reference state's fork; ask the oracle for the slashable-index set
treating `to_be_slashed` members as already slashed; keep the slashing only
on an `Ok` answer, extending `to_be_slashed` with the reported index set;
stop once `limit` slashings are kept. -/
def select_attester_slashings (st : BeaconState) (spec : ChainSpec) :
    Nat → List Nat → List ((AttestationId × AttestationId) × AttesterSlashing) →
    List AttesterSlashing
  | _, _, [] => []
  | limit, to_be_slashed, kv :: rest =>
    if limit = 0 then []
    else if attester_slashing_id kv.2 st spec = kv.1 then
      match get_slashable_indices_modular st kv.2
          (fun index v => v.slashed || to_be_slashed.contains index) with
      | Except.ok validators =>
        kv.2 :: select_attester_slashings st spec (limit - 1) (to_be_slashed ++ validators) rest
      | Except.error _ => select_attester_slashings st spec limit to_be_slashed rest
    else select_attester_slashings st spec limit to_be_slashed rest

/-- Non-redundancy of a selected attester-slashing sequence against a
working set: each slashing in turn has a non-empty slashable-index set when
validators already slashed in the state or claimed by the working set are
treated as slashed, and its index set extends the working set seen by the
later slashings. -/
def attester_non_redundant (st : BeaconState) : List AttesterSlashing → List Nat → Prop
  | [], _ => True
  | sl :: rest, to_be_slashed =>
    ∃ vs,
      get_slashable_indices_modular st sl
          (fun index v => v.slashed || to_be_slashed.contains index) = Except.ok vs
        ∧ vs ≠ [] ∧ attester_non_redundant st rest (to_be_slashed ++ vs)

/-- `OperationPool::get_slashings`: the proposer component filters stored
proposer slashings to those whose target validator exists and is not
already slashed, up to `MaxProposerSlashings`; the attester component runs
the selection loop seeded with the chosen proposers' indices, bounded by
`MaxAttesterSlashings`. The pool is returned unchanged (read locks only). -/
def get_slashings (pool : OperationPool) (st : BeaconState) (spec : ChainSpec) :
    OperationPool × (List ProposerSlashing × List AttesterSlashing) :=
  let proposer_slashings := filter_limit_operations (pool.proposer_slashings.map Prod.snd)
    (fun slashing =>
      match st.validators.get? slashing.proposer_index with
      | some validator => !validator.slashed
      | none => false)
    spec.max_proposer_slashings
  let to_be_slashed := proposer_slashings.map (fun s => s.proposer_index)
  let attester_slashings := select_attester_slashings st spec spec.max_attester_slashings
    to_be_slashed pool.attester_slashings
  (pool, (proposer_slashings, attester_slashings))

/-- `OperationPool::get_voluntary_exits`: filter stored exits through the
oracle's full check (`verify_exit`, passed in as `verify`), up to
`MaxVoluntaryExits`, in store order. The pool is returned unchanged. -/
def get_voluntary_exits (pool : OperationPool) (_st : BeaconState) (spec : ChainSpec)
    (verify : VoluntaryExit → Bool) : OperationPool × List VoluntaryExit :=
  (pool,
   filter_limit_operations (pool.voluntary_exits.map Prod.snd) verify spec.max_voluntary_exits)

/-- `prune_validator_hash_map`: remove the entries whose key resolves to a
validator for which `prune_if` holds; entries keyed by an index unknown to
the finalized state's registry are kept. -/
def prune_validator_hash_map {β : Type} (map : List (Nat × β)) (prune_if : Validator → Bool)
    (finalized_state : BeaconState) : List (Nat × β) :=
  map.filter (fun kv =>
    match finalized_state.validators.get? kv.1 with
    | some validator => !prune_if validator
    | none => true)

/-- `OperationPool::prune_proposer_slashings`: drop slashings whose
proposer is already slashed or withdrawable at the finalized epoch. -/
def prune_proposer_slashings (pool : OperationPool) (finalized_state : BeaconState) :
    OperationPool :=
  let pruned := prune_validator_hash_map pool.proposer_slashings
    (fun validator =>
      validator.slashed || is_withdrawable_at validator finalized_state.current_epoch)
    finalized_state
  { pool with proposer_slashings := pruned }

/-- `OperationPool::prune_attester_slashings`: drop slashings on another
fork (identity-key pair no longer matches) or with no remaining slashable
validator at the finalized epoch. -/
def prune_attester_slashings (pool : OperationPool) (finalized_state : BeaconState)
    (spec : ChainSpec) : OperationPool :=
  { pool with attester_slashings := pool.attester_slashings.filter (fun kv =>
      let fork_ok := decide (attester_slashing_id kv.2 finalized_state spec = kv.1)
      let slashing_ok :=
        match get_slashable_indices_modular finalized_state kv.2
            (fun _ validator =>
              validator.slashed ||
                is_withdrawable_at validator finalized_state.current_epoch) with
        | Except.ok _ => true
        | Except.error _ => false
      fork_ok && slashing_ok) }

/-- `OperationPool::prune_voluntary_exits`: drop exits for validators
already exited at the finalized epoch. -/
def prune_voluntary_exits (pool : OperationPool) (finalized_state : BeaconState) :
    OperationPool :=
  let pruned := prune_validator_hash_map pool.voluntary_exits
    (fun validator => is_exited_at validator finalized_state.current_epoch)
    finalized_state
  { pool with voluntary_exits := pruned }

/-- `OperationPool::prune_all`: the four prune passes in the code's fixed
order (attestations, proposer slashings, attester slashings, exits). -/
def prune_all (pool : OperationPool) (finalized_state : BeaconState) (spec : ChainSpec) :
    OperationPool :=
  prune_voluntary_exits
    (prune_attester_slashings
      (prune_proposer_slashings (prune_attestations pool finalized_state) finalized_state)
      finalized_state spec)
    finalized_state

/-! Helper lemmas. -/

/-- The scan loop maps each bucket entry to its merged form exactly when it
is disjoint from the new attestation, leaving it unchanged otherwise. -/
theorem insertLoop_fst (b : List Attestation) (att : Attestation) :
    (insertLoop b att).1 =
      b.map (fun e => if signers_disjoint_from e att then aggregate e att else e) := by
  induction b with
  | nil => rfl
  | cons e rest ih =>
    simp only [insertLoop, List.map_cons]
    by_cases hd : signers_disjoint_from e att
    · simp [hd, ih]
    · by_cases he : e = att
      · subst he; simp [hd, ih]
      · simp [hd, he, ih]

/-- The scan loop's flag is set exactly when some entry is disjoint from,
or bit-for-bit equal to, the new attestation. -/
theorem insertLoop_snd (b : List Attestation) (att : Attestation) :
    (insertLoop b att).2 =
      b.any (fun e => signers_disjoint_from e att || decide (e = att)) := by
  induction b with
  | nil => rfl
  | cons e rest ih =>
    simp only [insertLoop, List.any_cons]
    by_cases hd : signers_disjoint_from e att
    · simp [hd]
    · by_cases he : e = att
      · subst he; simp [hd]
      · simp [hd, he, ih]

/-- The scan loop never changes the number of entries in a bucket. -/
theorem insertLoop_length (b : List Attestation) (att : Attestation) :
    (insertLoop b att).1.length = b.length := by
  rw [insertLoop_fst]
  exact List.length_map b _

/-- The scan loop's flag is set whenever the new attestation is already a
bucket entry. -/
theorem insertLoop_flag_of_mem {b : List Attestation} {att : Attestation} (h : att ∈ b) :
    (insertLoop b att).2 = true := by
  rw [insertLoop_snd, List.any_eq_true]
  exact ⟨att, h, by simp⟩

/-- Replacing the value at a present key with one of equal length keeps
every bucket length, hence the length multiset, of the store. -/
theorem alistInsert_map_length {κ : Type} [DecidableEq κ] {α : Type}
    (m : List (κ × List α)) (k : κ) (v b : List α)
    (hget : alistGet m k = some b) (hlen : v.length = b.length) :
    (alistInsert m k v).map (fun kv => kv.2.length) = m.map (fun kv => kv.2.length) := by
  induction m with
  | nil => simp [alistGet] at hget
  | cons kv rest ih =>
    by_cases hk : kv.1 = k
    · simp only [alistGet, hk, if_pos] at hget
      simp only [alistInsert, hk, if_pos, List.map_cons]
      have : v.length = kv.2.length := by
        rw [hlen]
        exact congrArg _ (Option.some_injective _ hget).symm
      simp [this]
    · simp only [alistGet, hk, if_neg, if_false] at hget
      simp only [alistInsert, hk, if_neg, if_false, List.map_cons]
      rw [ih hget]

/-- Inserting at a key makes lookup at that key return the new value. -/
theorem alistGet_alistInsert_self {κ β : Type} [DecidableEq κ]
    (m : List (κ × β)) (k : κ) (v : β) :
    alistGet (alistInsert m k v) k = some v := by
  induction m with
  | nil => simp [alistInsert, alistGet]
  | cons kv rest ih =>
    by_cases hk : kv.1 = k
    · simp [alistInsert, hk, alistGet]
    · simp [alistInsert, hk, alistGet, ih]

/-- The greedy selector returns at most as many items as it has fuel. -/
theorem maximum_cover_go_length {α : Type} :
    ∀ (n : Nat) (items : List (α × List Nat)) (covered : List Nat),
      (maximum_cover_go n items covered).length ≤ n := by
  intro n
  induction n with
  | zero => intro items covered; simp [maximum_cover_go]
  | succ n ih =>
    intro items covered
    simp only [maximum_cover_go]
    by_cases hm : best_gain covered items = 0
    · simp [hm]
    · simp only [hm, if_false]
      cases hx : extract_first_best covered (best_gain covered items) items with
      | none => simp
      | some p =>
        simp only [List.length_cons]
        exact Nat.succ_le_succ (ih p.2 (covered ++ p.1.2))

/-- Extraction returns a candidate of the input list, and the remainder is
contained in the input list. -/
theorem extract_first_best_spec {α : Type} (covered : List Nat) (m : Nat) :
    ∀ (items : List (α × List Nat)) (x : α × List Nat) (rest : List (α × List Nat)),
      extract_first_best covered m items = some (x, rest) →
      x ∈ items ∧ ∀ y ∈ rest, y ∈ items := by
  intro items
  induction items with
  | nil => intro x rest h; simp [extract_first_best] at h
  | cons z zs ih =>
    intro x rest h
    by_cases hz : marginal_gain covered z.2 = m
    · simp only [extract_first_best, hz, if_pos] at h
      injection h with h1
      injection h1 with hx hrest
      subst hx; subst hrest
      exact ⟨List.mem_cons_self z zs, fun y hy => List.mem_cons_of_mem z hy⟩
    · simp only [extract_first_best, hz, if_false] at h
      cases hrec : extract_first_best covered m zs with
      | none => rw [hrec] at h; simp at h
      | some p =>
        obtain ⟨y, rest'⟩ := p
        rw [hrec] at h
        simp only [Option.some.injEq, Prod.mk.injEq] at h
        obtain ⟨hx, hrest⟩ := h
        subst hx; subst hrest
        obtain ⟨hmem, hsub⟩ := ih y rest' hrec
        constructor
        · exact List.mem_cons_of_mem z hmem
        · intro w hw
          rcases List.mem_cons.mp hw with hcase | hcase
          · simp [hcase]
          · exact List.mem_cons_of_mem z (hsub w hcase)

/-- Every item selected by the greedy loop comes from the candidate list. -/
theorem maximum_cover_go_mem {α : Type} :
    ∀ (n : Nat) (items : List (α × List Nat)) (covered : List Nat) (a : α),
      a ∈ maximum_cover_go n items covered → ∃ cov, (a, cov) ∈ items := by
  intro n
  induction n with
  | zero => intro items covered a h; simp [maximum_cover_go] at h
  | succ n ih =>
    intro items covered a h
    simp only [maximum_cover_go] at h
    by_cases hm : best_gain covered items = 0
    · simp [hm] at h
    · simp only [hm, if_false] at h
      cases hx : extract_first_best covered (best_gain covered items) items with
      | none => rw [hx] at h; simp at h
      | some p =>
        rw [hx] at h
        obtain ⟨hmem, hsub⟩ := extract_first_best_spec covered _ items p.1 p.2 hx
        rcases List.mem_cons.mp h with h | h
        · subst h
          exact ⟨p.1.2, by simpa using hmem⟩
        · obtain ⟨cov, hcov⟩ := ih p.2 (covered ++ p.1.2) a h
          exact ⟨cov, hsub _ hcov⟩

/-- An `Ok` answer of the slashable-index oracle is never the empty set. -/
theorem get_slashable_indices_modular_ok_ne_nil {st : BeaconState}
    {slashing : AttesterSlashing} {p : Nat → Validator → Bool} {vs : List Nat}
    (h : get_slashable_indices_modular st slashing p = Except.ok vs) : vs ≠ [] := by
  unfold get_slashable_indices_modular at h
  by_cases he : (((slashing.attestation_1.attesting_indices.filter
      (fun i => slashing.attestation_2.attesting_indices.contains i)).filter (fun i =>
        match st.validators.get? i with
        | some v => !(p i v)
        | none => false))).isEmpty
  · rw [if_pos he] at h
    exact absurd h (by simp)
  · rw [if_neg he] at h
    injection h with h
    subst h
    simpa [List.isEmpty_iff] using he

/-- The selection loop only keeps attester slashings the oracle reports a
non-empty net-new slashable-index set for, threading each accepted set into
the working set seen by the later candidates. -/
theorem select_attester_slashings_non_redundant (st : BeaconState) (spec : ChainSpec) :
    ∀ (store : List ((AttestationId × AttestationId) × AttesterSlashing))
      (limit : Nat) (to_be_slashed : List Nat),
      attester_non_redundant st (select_attester_slashings st spec limit to_be_slashed store)
        to_be_slashed := by
  intro store
  induction store with
  | nil => intro limit tbs; simp [select_attester_slashings, attester_non_redundant]
  | cons kv rest ih =>
    intro limit tbs
    simp only [select_attester_slashings]
    by_cases hl : limit = 0
    · simp [hl, attester_non_redundant]
    · rw [if_neg hl]
      by_cases hid : attester_slashing_id kv.2 st spec = kv.1
      · rw [if_pos hid]
        cases hor : get_slashable_indices_modular st kv.2
            (fun index v => v.slashed || tbs.contains index) with
        | ok vs =>
          exact ⟨vs, hor, get_slashable_indices_modular_ok_ne_nil hor,
            ih (limit - 1) (tbs ++ vs)⟩
        | error e => exact ih limit tbs
      · rw [if_neg hid]; exact ih limit tbs

/-- Claim C9: `insert_attestation` always returns `Ok(())` — despite its
`Result` signature it has no reachable error return. -/
theorem insert_attestation_always_ok (pool : OperationPool) (att : Attestation)
    (st : BeaconState) (spec : ChainSpec) :
    (insert_attestation pool att st spec).2 = Except.ok () := by
  unfold insert_attestation
  dsimp only
  split <;> rfl

/-- Claim C2: inserting an attestation that is already present bit-for-bit
as an entry of its bucket leaves `num_attestations` unchanged. -/
theorem insert_attestation_duplicate_preserves_count (pool : OperationPool)
    (att : Attestation) (st : BeaconState) (spec : ChainSpec) (b : List Attestation)
    (hb : alistGet pool.attestations (attestation_id_from_data att.data st spec) = some b)
    (hmem : att ∈ b) :
    num_attestations (insert_attestation pool att st spec).1 = num_attestations pool := by
  have hlen : (insertIntoBucket b att).length = b.length := by
    unfold insertIntoBucket
    simp [insertLoop_flag_of_mem hmem, insertLoop_length]
  unfold insert_attestation
  dsimp only
  rw [hb]
  unfold num_attestations
  dsimp only
  rw [alistInsert_map_length pool.attestations _ _ b hb hlen]

/-- Claim C2 witness: a concrete duplicate insert leaving the count at 1. -/
theorem insert_attestation_duplicate_preserves_count_witness :
    num_attestations (insert_attestation
        { attestations := [((⟨0, 0⟩, 0), [⟨⟨0, 0⟩, [true], 1⟩])],
          attester_slashings := [], proposer_slashings := [], voluntary_exits := [] }
        ⟨⟨0, 0⟩, [true], 1⟩
        { validators := [], current_epoch := 0, domain := fun _ => 0 }
        ⟨8, 8, 8, 8⟩).1
      = num_attestations
        { attestations := [((⟨0, 0⟩, 0), [⟨⟨0, 0⟩, [true], 1⟩])],
          attester_slashings := [], proposer_slashings := [], voluntary_exits := [] } :=
  insert_attestation_duplicate_preserves_count _ _ _ _ [⟨⟨0, 0⟩, [true], 1⟩]
    (by decide) (by decide)

/-- Claim C4: `get_attestations` never returns more attestations than
`MaxAttestations`. -/
theorem get_attestations_length_le_max (pool : OperationPool) (st : BeaconState)
    (spec : ChainSpec) (verify : Attestation → Bool) (cover : Attestation → List Nat) :
    (get_attestations pool st spec verify cover).2.length ≤ spec.max_attestations := by
  unfold get_attestations maximum_cover
  exact maximum_cover_go_length spec.max_attestations _ []

/-- Claim C3: every attester slashing selected by `get_slashings` has a
non-empty slashable-index set computed treating validators slashed in the
reference state, the selected proposers, and the index sets of the
earlier-selected attester slashings as already slashed; and each accepted
index set extends the working set seen by the later candidates. -/
theorem get_slashings_attester_non_redundant (pool : OperationPool) (st : BeaconState)
    (spec : ChainSpec) :
    attester_non_redundant st (get_slashings pool st spec).2.2
      ((get_slashings pool st spec).2.1.map (fun s => s.proposer_index)) := by
  unfold get_slashings
  exact select_attester_slashings_non_redundant st spec pool.attester_slashings
    spec.max_attester_slashings _

/-- Claim C1 counterexample: inserting an attestation into a bucket with
two entries both disjoint from it mutates the second entry too — the loop
has no break, so the insert is not limited to the first disjoint match.
The bucket holds signer sets numbered 1 and 2; the new attestation has
signer set 3, disjoint from both; after the insert the second entry has
changed (its bits and signature absorbed the new attestation). -/
theorem insert_attestation_mutates_beyond_first_match :
    ((insert_attestation
        { attestations := [((⟨0, 0⟩, 0),
            [⟨⟨0, 0⟩, [true, false, false], 1⟩, ⟨⟨0, 0⟩, [false, true, false], 2⟩])],
          attester_slashings := [], proposer_slashings := [], voluntary_exits := [] }
        ⟨⟨0, 0⟩, [false, false, true], 4⟩
        { validators := [], current_epoch := 0, domain := fun _ => 0 }
        ⟨8, 8, 8, 8⟩).1.attestations
      = [((⟨0, 0⟩, 0),
          [⟨⟨0, 0⟩, [true, false, true], 5⟩, ⟨⟨0, 0⟩, [false, true, true], 6⟩])])
    ∧ (⟨⟨0, 0⟩, [false, true, true], 6⟩ : Attestation)
        ≠ ⟨⟨0, 0⟩, [false, true, false], 2⟩ := by
  decide

/-- Claim C1 (amended): when the bucket for the attestation's identity key
exists, the insert merges the attestation into every entry whose signer set
is disjoint from it (each such entry is mutated, possibly more than one);
entries neither disjoint from nor bit-for-bit equal to it are left
unchanged; and the attestation is appended as a new entry exactly when no
entry was disjoint or equal. -/
theorem insert_attestation_merges_every_disjoint_entry (pool : OperationPool)
    (att : Attestation) (st : BeaconState) (spec : ChainSpec) (b : List Attestation)
    (hb : alistGet pool.attestations (attestation_id_from_data att.data st spec) = some b) :
    (insert_attestation pool att st spec).1.attestations
      = alistInsert pool.attestations (attestation_id_from_data att.data st spec)
          ((b.map fun e => if signers_disjoint_from e att then aggregate e att else e)
            ++ (if b.any (fun e => signers_disjoint_from e att || decide (e = att)) then []
                else [att])) := by
  unfold insert_attestation
  dsimp only
  rw [hb]
  dsimp only
  congr 1
  unfold insertIntoBucket
  by_cases hany : b.any (fun e => signers_disjoint_from e att || decide (e = att))
  · simp [insertLoop_fst, insertLoop_snd, hany]
  · simp [insertLoop_fst, insertLoop_snd, hany]

/-- Claim C1 witness: a concrete insert into a one-entry bucket matching
the amended description. -/
theorem insert_attestation_merges_every_disjoint_entry_witness :
    (insert_attestation
        { attestations := [((⟨0, 0⟩, 0), [⟨⟨0, 0⟩, [true, false], 1⟩])],
          attester_slashings := [], proposer_slashings := [], voluntary_exits := [] }
        ⟨⟨0, 0⟩, [false, true], 2⟩
        { validators := [], current_epoch := 0, domain := fun _ => 0 }
        ⟨8, 8, 8, 8⟩).1.attestations
      = alistInsert [((⟨0, 0⟩, 0), [⟨⟨0, 0⟩, [true, false], 1⟩])]
          (attestation_id_from_data ⟨0, 0⟩
            { validators := [], current_epoch := 0, domain := fun _ => 0 } ⟨8, 8, 8, 8⟩)
          (([⟨⟨0, 0⟩, [true, false], 1⟩].map fun e =>
              if signers_disjoint_from e ⟨⟨0, 0⟩, [false, true], 2⟩ then
                aggregate e ⟨⟨0, 0⟩, [false, true], 2⟩
              else e)
            ++ (if [⟨⟨0, 0⟩, [true, false], 1⟩].any (fun e =>
                  signers_disjoint_from e ⟨⟨0, 0⟩, [false, true], 2⟩ ||
                    decide (e = ⟨⟨0, 0⟩, [false, true], 2⟩)) then []
                else [⟨⟨0, 0⟩, [false, true], 2⟩])) :=
  insert_attestation_merges_every_disjoint_entry _ _ _ _ [⟨⟨0, 0⟩, [true, false], 1⟩]
    (by decide)

/-- Claim C5: after `prune_all` with a finalized state at epoch E, every
retained attestation (in a pool whose buckets are data-uniform, as the
identity keying guarantees) has target epoch at least E - 1, and every
bucket whose shared target epoch is more than one epoch behind E has been
removed. -/
theorem prune_all_removes_old_attestations (pool : OperationPool)
    (finalized_state : BeaconState) (spec : ChainSpec)
    (huni : ∀ kv ∈ pool.attestations, ∀ a ∈ kv.2, ∀ a' ∈ kv.2,
      a.data.target_epoch = a'.data.target_epoch) :
    (∀ kv ∈ (prune_all pool finalized_state spec).attestations, ∀ a ∈ kv.2,
        finalized_state.current_epoch - 1 ≤ a.data.target_epoch)
    ∧ (∀ kv ∈ pool.attestations, ∀ a0, kv.2.head? = some a0 →
        a0.data.target_epoch + 1 < finalized_state.current_epoch →
        kv ∉ (prune_all pool finalized_state spec).attestations) := by
  have hatt : (prune_all pool finalized_state spec).attestations
      = (prune_attestations pool finalized_state).attestations := rfl
  constructor
  · intro kv hkv a ha
    rw [hatt] at hkv
    unfold prune_attestations at hkv
    dsimp only at hkv
    rw [List.mem_filter] at hkv
    obtain ⟨hkvmem, hpred⟩ := hkv
    cases hb : kv.2 with
    | nil => rw [hb] at ha; simp at ha
    | cons a0 rest =>
      rw [hb] at hpred
      simp only [List.head?_cons] at hpred
      have h0 : finalized_state.current_epoch ≤ a0.data.target_epoch + 1 :=
        of_decide_eq_true hpred
      have heq : a.data.target_epoch = a0.data.target_epoch := by
        refine huni kv hkvmem a ha a0 ?_
        rw [hb]; exact List.mem_cons_self a0 rest
      omega
  · intro kv hkv a0 hhead hlt hcontra
    rw [hatt] at hcontra
    unfold prune_attestations at hcontra
    dsimp only at hcontra
    rw [List.mem_filter] at hcontra
    obtain ⟨_, hpred⟩ := hcontra
    rw [hhead] at hpred
    have h0 : finalized_state.current_epoch ≤ a0.data.target_epoch + 1 :=
      of_decide_eq_true hpred
    omega

/-- Claim C5 witness: at finalized epoch 5, a bucket with target epoch 4 is
kept and a bucket with target epoch 2 is removed. -/
theorem prune_all_removes_old_attestations_witness :
    (∀ kv ∈ (prune_all
        { attestations := [((⟨4, 0⟩, 0), [⟨⟨4, 0⟩, [true], 1⟩]),
            ((⟨2, 0⟩, 0), [⟨⟨2, 0⟩, [true], 1⟩])],
          attester_slashings := [], proposer_slashings := [], voluntary_exits := [] }
        { validators := [], current_epoch := 5, domain := fun _ => 0 }
        ⟨8, 8, 8, 8⟩).attestations, ∀ a ∈ kv.2,
        ({ validators := [], current_epoch := 5, domain := fun _ => 0 } :
            BeaconState).current_epoch - 1 ≤ a.data.target_epoch)
    ∧ (∀ kv ∈
        ({ attestations := [((⟨4, 0⟩, 0), [⟨⟨4, 0⟩, [true], 1⟩]),
              ((⟨2, 0⟩, 0), [⟨⟨2, 0⟩, [true], 1⟩])],
           attester_slashings := [], proposer_slashings := [],
           voluntary_exits := [] } : OperationPool).attestations,
        ∀ a0, kv.2.head? = some a0 →
        a0.data.target_epoch + 1 <
          ({ validators := [], current_epoch := 5, domain := fun _ => 0 } :
            BeaconState).current_epoch →
        kv ∉ (prune_all
          { attestations := [((⟨4, 0⟩, 0), [⟨⟨4, 0⟩, [true], 1⟩]),
              ((⟨2, 0⟩, 0), [⟨⟨2, 0⟩, [true], 1⟩])],
            attester_slashings := [], proposer_slashings := [], voluntary_exits := [] }
          { validators := [], current_epoch := 5, domain := fun _ => 0 }
          ⟨8, 8, 8, 8⟩).attestations) :=
  prune_all_removes_old_attestations _ _ _ (by decide)

/-- Claim C6: the proposer-slashing component of `get_slashings` is exactly
the stored proposer slashings whose target validator exists and is not
already slashed in the reference state, in store-iteration order, up to
`MaxProposerSlashings`. -/
theorem get_slashings_proposer_component (pool : OperationPool) (st : BeaconState)
    (spec : ChainSpec) :
    (get_slashings pool st spec).2.1
        = ((pool.proposer_slashings.map Prod.snd).filter (fun slashing =>
            match st.validators.get? slashing.proposer_index with
            | some validator => !validator.slashed
            | none => false)).take spec.max_proposer_slashings
      ∧ (get_slashings pool st spec).2.1.length ≤ spec.max_proposer_slashings
      ∧ ∀ s ∈ (get_slashings pool st spec).2.1,
          ∃ v, st.validators.get? s.proposer_index = some v ∧ v.slashed = false := by
  have hcomp : (get_slashings pool st spec).2.1
      = ((pool.proposer_slashings.map Prod.snd).filter (fun slashing =>
          match st.validators.get? slashing.proposer_index with
          | some validator => !validator.slashed
          | none => false)).take spec.max_proposer_slashings := rfl
  refine ⟨hcomp, ?_, ?_⟩
  · rw [hcomp]
    exact le_trans (List.length_take_le _ _) (le_refl _)
  · intro s hs
    rw [hcomp] at hs
    have hf := List.mem_of_mem_filter (List.take_subset _ _ hs)
    have hp := List.of_mem_filter (List.take_subset _ _ hs)
    cases hv : st.validators.get? s.proposer_index with
    | none => rw [hv] at hp; simp at hp
    | some v =>
      rw [hv] at hp
      simp only [Bool.not_eq_true'] at hp
      exact ⟨v, rfl, hp⟩

/-- Claim C7: for each of the three validated insert operations, an oracle
rejection is propagated unchanged with the whole pool left exactly as it
was, and an oracle acceptance overwrites any existing entry for the
operation's key. -/
theorem insert_operations_reject_or_overwrite (pool : OperationPool) (st : BeaconState)
    (spec : ChainSpec) :
    (∀ (sl : ProposerSlashing) (e : ProposerSlashingValidationError),
        insert_proposer_slashing pool sl st spec (Except.error e) = (pool, Except.error e))
    ∧ (∀ sl : ProposerSlashing,
        (insert_proposer_slashing pool sl st spec (Except.ok ())).1.proposer_slashings
            = alistInsert pool.proposer_slashings sl.proposer_index sl
          ∧ alistGet (insert_proposer_slashing pool sl st spec
              (Except.ok ())).1.proposer_slashings sl.proposer_index = some sl
          ∧ (insert_proposer_slashing pool sl st spec (Except.ok ())).2 = Except.ok ())
    ∧ (∀ (sl : AttesterSlashing) (e : AttesterSlashingValidationError),
        insert_attester_slashing pool sl st spec (Except.error e) = (pool, Except.error e))
    ∧ (∀ sl : AttesterSlashing,
        (insert_attester_slashing pool sl st spec (Except.ok ())).1.attester_slashings
            = alistInsert pool.attester_slashings (attester_slashing_id sl st spec) sl
          ∧ alistGet (insert_attester_slashing pool sl st spec
              (Except.ok ())).1.attester_slashings (attester_slashing_id sl st spec) = some sl
          ∧ (insert_attester_slashing pool sl st spec (Except.ok ())).2 = Except.ok ())
    ∧ (∀ (ex : VoluntaryExit) (e : ExitValidationError),
        insert_voluntary_exit pool ex st spec (Except.error e) = (pool, Except.error e))
    ∧ (∀ ex : VoluntaryExit,
        (insert_voluntary_exit pool ex st spec (Except.ok ())).1.voluntary_exits
            = alistInsert pool.voluntary_exits ex.validator_index ex
          ∧ alistGet (insert_voluntary_exit pool ex st spec
              (Except.ok ())).1.voluntary_exits ex.validator_index = some ex
          ∧ (insert_voluntary_exit pool ex st spec (Except.ok ())).2 = Except.ok ()) := by
  refine ⟨fun sl e => rfl,
    fun sl => ⟨rfl, ?_, rfl⟩,
    fun sl e => rfl,
    fun sl => ⟨rfl, ?_, rfl⟩,
    fun ex e => rfl,
    fun ex => ⟨rfl, ?_, rfl⟩⟩
  · exact alistGet_alistInsert_self pool.proposer_slashings sl.proposer_index sl
  · exact alistGet_alistInsert_self pool.attester_slashings (attester_slashing_id sl st spec) sl
  · exact alistGet_alistInsert_self pool.voluntary_exits ex.validator_index ex

/-- Claim C8: the selection calls return the pool unchanged (they only
read), and an entry invalid for the reference state is excluded from the
result rather than surfaced as an error: every selected attestation passes
the inclusion oracle, every selected proposer slashing targets an existing
unslashed validator, and every selected exit passes the exit oracle. The
selection functions are total by type: their results carry no error case. -/
theorem selection_calls_frame_and_exclude (pool : OperationPool) (st : BeaconState)
    (spec : ChainSpec) (verify : Attestation → Bool) (cover : Attestation → List Nat)
    (verify_exit : VoluntaryExit → Bool) :
    (get_attestations pool st spec verify cover).1 = pool
    ∧ (get_slashings pool st spec).1 = pool
    ∧ (get_voluntary_exits pool st spec verify_exit).1 = pool
    ∧ (∀ a ∈ (get_attestations pool st spec verify cover).2, verify a = true)
    ∧ (∀ s ∈ (get_slashings pool st spec).2.1,
        ∃ v, st.validators.get? s.proposer_index = some v ∧ v.slashed = false)
    ∧ (∀ ex ∈ (get_voluntary_exits pool st spec verify_exit).2, verify_exit ex = true) := by
  refine ⟨rfl, rfl, rfl, ?_, ?_, ?_⟩
  · intro a ha
    unfold get_attestations at ha
    dsimp only at ha
    obtain ⟨cov, hcov⟩ := maximum_cover_go_mem spec.max_attestations _ [] a ha
    rw [List.mem_map] at hcov
    obtain ⟨a', ha', heq⟩ := hcov
    injection heq with h1 h2
    subst h1
    exact List.of_mem_filter ha'
  · intro s hs
    unfold get_slashings at hs
    dsimp only at hs
    have hp := List.of_mem_filter (List.take_subset _ _ hs)
    cases hv : st.validators.get? s.proposer_index with
    | none => rw [hv] at hp; simp at hp
    | some v =>
      rw [hv] at hp
      simp only [Bool.not_eq_true'] at hp
      exact ⟨v, rfl, hp⟩
  · intro ex hex
    unfold get_voluntary_exits filter_limit_operations at hex
    dsimp only at hex
    exact List.of_mem_filter (List.take_subset _ _ hex)

/-- Claim C10: `prune_proposer_slashings` and `prune_voluntary_exits` never
remove an entry whose validator index is unknown to the finalized state's
registry — such entries are always retained. -/
theorem prune_retains_unknown_validator_entries (pool : OperationPool)
    (finalized_state : BeaconState) (k : Nat)
    (hk : finalized_state.validators.get? k = none) :
    (∀ sl, (k, sl) ∈ pool.proposer_slashings →
        (k, sl) ∈ (prune_proposer_slashings pool finalized_state).proposer_slashings)
    ∧ (∀ ex, (k, ex) ∈ pool.voluntary_exits →
        (k, ex) ∈ (prune_voluntary_exits pool finalized_state).voluntary_exits) := by
  constructor
  · intro sl hsl
    unfold prune_proposer_slashings prune_validator_hash_map
    dsimp only
    rw [List.mem_filter]
    exact ⟨hsl, by rw [hk]⟩
  · intro ex hex
    unfold prune_voluntary_exits prune_validator_hash_map
    dsimp only
    rw [List.mem_filter]
    exact ⟨hex, by rw [hk]⟩

/-- Claim C10 witness: with an empty validator registry, entries keyed by
validator index 3 survive both prunes. -/
theorem prune_retains_unknown_validator_entries_witness :
    (∀ sl, ((3 : Nat), sl) ∈
        ({ attestations := [], attester_slashings := [],
           proposer_slashings := [(3, ⟨3, 0⟩)],
           voluntary_exits := [(3, ⟨3, 0⟩)] } : OperationPool).proposer_slashings →
        ((3 : Nat), sl) ∈ (prune_proposer_slashings
          { attestations := [], attester_slashings := [],
            proposer_slashings := [(3, ⟨3, 0⟩)], voluntary_exits := [(3, ⟨3, 0⟩)] }
          { validators := [], current_epoch := 5,
            domain := fun _ => 0 }).proposer_slashings)
    ∧ (∀ ex, ((3 : Nat), ex) ∈
        ({ attestations := [], attester_slashings := [],
           proposer_slashings := [(3, ⟨3, 0⟩)],
           voluntary_exits := [(3, ⟨3, 0⟩)] } : OperationPool).voluntary_exits →
        ((3 : Nat), ex) ∈ (prune_voluntary_exits
          { attestations := [], attester_slashings := [],
            proposer_slashings := [(3, ⟨3, 0⟩)], voluntary_exits := [(3, ⟨3, 0⟩)] }
          { validators := [], current_epoch := 5,
            domain := fun _ => 0 }).voluntary_exits) :=
  prune_retains_unknown_validator_entries _ _ 3 (by decide)

end OpPool
